import Mathlib

/-!
Verification of the osrs_price_cli cache layer, refresh policies, matcher
and display logic. Definitions are shallow embeddings of the Rust sources
`src/client.rs`, `src/main.rs` and `src/config.rs`:

* `CacheFile` models one on-disk cache record: its content (absent or a
  byte string), whether its filesystem metadata can be read, and its
  modification time in nanoseconds.
* Panics in the Rust code (`expect` / `unwrap` on metadata, mtime and
  clock reads) are embedded as `Except.error` values, following the
  stated reinterpretation of ambient panics as explicit fail-fast errors.
* Durations are naturals counting nanoseconds (Rust `Duration` compares
  with nanosecond precision; `as_secs` truncates to whole seconds).
-/

namespace OsrsPriceCli

/-- Errors a dataset load can surface. `cacheUnreadable` embeds the
panics on `metadata()` / `modified()`; `mtimeInFuture` embeds the panic
on `SystemTime::now().duration_since(mtime)` when the mtime is later
than the current time. -/
inductive LoadError where
  | fetchFailed
  | decodeFailed
  | cacheMissing
  | cacheUnreadable
  | mtimeInFuture
deriving DecidableEq, Repr

/-- One on-disk cache record: `content = none` means the file does not
exist; `metadataReadable` records whether `metadata()`/`modified()`
succeed; `mtimeNanos` is the modification time. -/
structure CacheFile where
  content : Option String
  metadataReadable : Bool
  mtimeNanos : Nat
deriving DecidableEq, Repr

def nanosPerSec : Nat := 1000000000

/-- `main.rs` `should_refresh_mapping`: `!mapping_path.exists() || refresh_mappings`. -/
def shouldRefreshMapping (cache : CacheFile) (refreshMappings : Bool) : Bool :=
  !cache.content.isSome || refreshMappings

/-- `client.rs`: `force_refresh || self.should_refresh_mappings()` where
`should_refresh_mappings` is `!self.mappings_cache().exists()`. -/
def clientMappingRefreshDecision (cache : CacheFile) (forceRefresh : Bool) : Bool :=
  forceRefresh || !cache.content.isSome

/-- `client.rs` `should_refresh_prices`: returns `true` if the cache is
absent; otherwise reads metadata and mtime (panic on failure embedded as
`cacheUnreadable`), computes `now.duration_since(mtime)` (panic when the
mtime is in the future embedded as `mtimeInFuture`) and refreshes iff
`duration > price_cache_ttl`. -/
def shouldRefreshPrices (cache : CacheFile) (nowNanos ttlNanos : Nat) :
    Except LoadError Bool :=
  if !cache.content.isSome then .ok true
  else if !cache.metadataReadable then .error .cacheUnreadable
  else if nowNanos < cache.mtimeNanos then .error .mtimeInFuture
  else .ok (decide (nowNanos - cache.mtimeNanos > ttlNanos))

/-- `client.rs` `get_prices` refresh condition:
`force_refresh || self.should_refresh_prices()`; the short-circuiting `||`
means the staleness check does not run when `force_refresh` is set. -/
def clientPriceRefreshDecision (cache : CacheFile) (forceRefresh : Bool)
    (nowNanos ttlNanos : Nat) : Except LoadError Bool :=
  if forceRefresh then .ok true else shouldRefreshPrices cache nowNanos ttlNanos

/-- `main.rs` `should_refresh_prices`: `!exists || force_prices` returns
`true` immediately; otherwise metadata/mtime are read (panics embedded as
errors) and the file is refreshed iff `duration.as_secs() >= 5 * 60`,
i.e. the elapsed whole seconds reach 300. -/
def mainShouldRefreshPrices (cache : CacheFile) (forcePrices : Bool)
    (nowNanos : Nat) : Except LoadError Bool :=
  if !cache.content.isSome || forcePrices then .ok true
  else if !cache.metadataReadable then .error .cacheUnreadable
  else if nowNanos < cache.mtimeNanos then .error .mtimeInFuture
  else .ok (decide ((nowNanos - cache.mtimeNanos) / nanosPerSec ≥ 5 * 60))

/-- `client.rs` `get_mappings` (the same statement order as `main.rs`
`get_mappings`): when the refresh decision is true, fetch the body
(transport failure propagates), then `fs::write(cache, &body)`, and only
afterwards decode the body; a decode failure is reported after the cache
file has already been overwritten. When no refresh is needed, the cache
file is opened and decoded. The decoder is the dataset's `serde_json`
deserializer, kept abstract. -/
def getMappings {α : Type} (cache : CacheFile) (fetchResult : Except Unit String)
    (forceRefresh : Bool) (decode : String → Option α) :
    Except LoadError α × CacheFile :=
  if clientMappingRefreshDecision cache forceRefresh then
    match fetchResult with
    | .error _ => (.error .fetchFailed, cache)
    | .ok body =>
      let written := { cache with content := some body }
      match decode body with
      | none => (.error .decodeFailed, written)
      | some v => (.ok v, written)
  else
    match cache.content with
    | none => (.error .cacheMissing, cache)
    | some raw =>
      match decode raw with
      | none => (.error .decodeFailed, cache)
      | some v => (.ok v, cache)

/-- `client.rs` `get_prices` (same statement order as `main.rs`
`get_prices`): evaluate the refresh decision (its embedded panics
propagate); on refresh, fetch, then `fs::write`, then decode — the write
precedes the decode exactly as in the source. -/
def getPrices {α : Type} (cache : CacheFile) (fetchResult : Except Unit String)
    (forceRefresh : Bool) (nowNanos ttlNanos : Nat) (decode : String → Option α) :
    Except LoadError α × CacheFile :=
  match clientPriceRefreshDecision cache forceRefresh nowNanos ttlNanos with
  | .error e => (.error e, cache)
  | .ok true =>
    match fetchResult with
    | .error _ => (.error .fetchFailed, cache)
    | .ok body =>
      let written := { cache with content := some body }
      match decode body with
      | none => (.error .decodeFailed, written)
      | some v => (.ok v, written)
  | .ok false =>
    match cache.content with
    | none => (.error .cacheMissing, cache)
    | some raw =>
      match decode raw with
      | none => (.error .decodeFailed, cache)
      | some v => (.ok v, cache)

/-- One decoded mapping entry (`ItemMapping` in the sources): stable id
and item name. -/
structure ItemMapping where
  id : Nat
  name : String
deriving DecidableEq, Repr

/-- `needle.leadsWith hay`: the first list is an initial segment of the
second (character-wise equality). Building block for substring search. -/
def leadsWith : List Char → List Char → Bool
  | [], _ => true
  | _ :: _, [] => false
  | a :: as, b :: bs => a == b && leadsWith as bs

/-- `occursIn needle hay`: `needle` occurs contiguously somewhere in
`hay`. Embeds Rust `str::contains` with a string pattern, which is
substring containment on the character sequence. -/
def occursIn (needle : List Char) : List Char → Bool
  | [] => needle.isEmpty
  | c :: rest => leadsWith needle (c :: rest) || occursIn needle rest

/-- The ids produced by the filter-map inside `get_matching_item_ids`
(`main.rs`): lowercase the query once, keep every mapping whose
lowercased name contains it, and take the ids, in mapping order and
with possible duplicates. Rust `str::to_lowercase` is embedded as the
character-wise case map `Char.toLower`. -/
def matchedIdsList (name : String) (mappings : List ItemMapping) : List Nat :=
  let lower := name.data.map Char.toLower
  (mappings.filter
    (fun m => occursIn lower (m.name.data.map Char.toLower))).map (fun m => m.id)

/-- `main.rs` `get_matching_item_ids`: the matching ids collected into a
`HashSet`, embedded as a `Finset`. -/
def getMatchingItemIds (name : String) (mappings : List ItemMapping) : Finset Nat :=
  (matchedIdsList name mappings).toFinset

/-- The all-uppercase form of a query (character-wise). -/
def upperStr (s : String) : String :=
  String.mk (s.data.map Char.toUpper)

/-- Change one character's case: lowercase letters become uppercase,
uppercase letters become lowercase, everything else is unchanged. -/
def flipCaseChar (c : Char) : Char :=
  if c.isLower then c.toUpper else c.toLower

/-- A query with every letter's case changed. -/
def flipCaseStr (s : String) : String :=
  String.mk (s.data.map flipCaseChar)

/-- One decoded price entry (`PriceResult` in the sources): absent
fields mean no recent trade, not zero. -/
structure PriceResult where
  high : Option Nat
  low : Option Nat
deriving DecidableEq, Repr

/-- `main.rs` `display_price`: the line printed for one item. The
locale-dependent thousands formatting (`to_formatted_string`) is the
abstract `fmt` argument; absent fields go through `unwrap_or(0)`,
embedded as `Option.getD 0`. -/
def displayPrice (fmt : Nat → String) (name : String) (price : PriceResult) : String :=
  name ++ " -> high: " ++ fmt (price.high.getD 0) ++ ", low: " ++ fmt (price.low.getD 0)

/-- The price table of `main.rs` (`HashMap<String, PriceResult>` keyed by
the string form of the id) looked up at `item_id.to_string()`. -/
def priceLookup (data : List (String × PriceResult)) (itemId : Nat) : Option PriceResult :=
  (data.find? (fun kv => kv.fst == toString itemId)).map (fun kv => kv.snd)

/-- The name join in the display loop of `main.rs`:
`mappings.iter().find(|m| m.id == item_id)` takes the first entry in
mapping order with the given id; `none` embeds the `unwrap` panic when
no entry exists. -/
def lookupName (itemId : Nat) (mappings : List ItemMapping) : Option String :=
  (mappings.find? (fun m => m.id == itemId)).map (fun m => m.name)

/-- The display loop at the end of `main.rs` `main`: for each matched id,
look up its name (`unwrap`, embedded as a `none` overall result on
failure), then print a line when the price table has the id and silently
`continue` when it does not. Returns the printed lines in iteration
order, or `none` when a name lookup would panic. -/
def displayLoop (fmt : Nat → String) (mappings : List ItemMapping)
    (data : List (String × PriceResult)) : List Nat → Option (List String)
  | [] => some []
  | i :: rest =>
    match lookupName i mappings with
    | none => none
    | some name =>
      match displayLoop fmt mappings data rest with
      | none => none
      | some lines =>
        match priceLookup data i with
        | some price => some (displayPrice fmt name price :: lines)
        | none => some lines

end OsrsPriceCli

namespace OsrsPriceCli

/-- C4: the mapping-dataset refresh decision, in both the `main.rs` and
the `client.rs` variant, equals `!exists || force` and never consults the
cache file's age or metadata: with an existing cache and `force = false`
it is `false`, and with a missing cache or `force = true` it is `true`. -/
theorem mapping_refresh_presence_only (cache : CacheFile) (force : Bool) :
    shouldRefreshMapping cache force = (!cache.content.isSome || force)
    ∧ clientMappingRefreshDecision cache force = (!cache.content.isSome || force)
    ∧ ∀ (n : Nat) (b : Bool),
        shouldRefreshMapping { cache with mtimeNanos := n, metadataReadable := b } force
          = shouldRefreshMapping cache force := by
  refine ⟨rfl, ?_, fun n b => rfl⟩
  simp [clientMappingRefreshDecision, shouldRefreshMapping, Bool.or_comm]

/-- C3 (amended): with readable metadata and an mtime not in the future,
the `client.rs` price refresh decision equals
`!exists || force || age > ttl` exactly (nanosecond comparison), while
the `main.rs` variant ignores any configured TTL and refreshes iff
`!exists || force || (age in whole seconds) ≥ 300`, so at an age of
exactly 300 seconds it refreshes. -/
theorem price_refresh_decision_formula (cache : CacheFile) (force : Bool)
    (nowNanos ttlNanos : Nat)
    (hmeta : cache.metadataReadable = true)
    (hpast : cache.mtimeNanos ≤ nowNanos) :
    clientPriceRefreshDecision cache force nowNanos ttlNanos
      = .ok (!cache.content.isSome || force
          || decide (nowNanos - cache.mtimeNanos > ttlNanos))
    ∧ mainShouldRefreshPrices cache force nowNanos
      = .ok (!cache.content.isSome || force
          || decide ((nowNanos - cache.mtimeNanos) / nanosPerSec ≥ 5 * 60)) := by
  constructor
  · rcases force with _ | _
    · rcases h : cache.content.isSome with _ | _ <;>
        simp [clientPriceRefreshDecision, shouldRefreshPrices, h, hmeta,
          Nat.not_lt.mpr hpast]
    · rcases h : cache.content.isSome with _ | _ <;>
        simp [clientPriceRefreshDecision, h]
  · rcases force with _ | _
    · rcases h : cache.content.isSome with _ | _ <;>
        simp [mainShouldRefreshPrices, h, hmeta, Nat.not_lt.mpr hpast]
    · rcases h : cache.content.isSome with _ | _ <;>
        simp [mainShouldRefreshPrices, h]

/-- C3 witness: at an existing cache, no force, age 100 s and ttl 300 s,
both variants decide not to refresh. -/
theorem price_refresh_decision_formula_witness :
    clientPriceRefreshDecision ⟨some "cached", true, 0⟩ false 100000000000 300000000000
      = .ok false
    ∧ mainShouldRefreshPrices ⟨some "cached", true, 0⟩ false 100000000000
      = .ok false := by
  have h := price_refresh_decision_formula ⟨some "cached", true, 0⟩ false
    100000000000 300000000000 rfl (by decide)
  exact ⟨by rw [h.1]; rfl, by rw [h.2]; rfl⟩

/-- C3 counterexample: with an existing cache, `force = false` and an age
of exactly 300 seconds (the `main.rs` hard-coded TTL), the `main.rs`
decision is `true`, while the claimed predicate `age > ttl` (with
`ttl = 300` s) is `false` — the claimed strict inequality does not match
the `>=` comparison in the code. -/
theorem ttl_boundary_cex :
    mainShouldRefreshPrices ⟨some "cached", true, 0⟩ false 300000000000 = .ok true
    ∧ (!(some "cached" : Option String).isSome || false
        || decide ((300000000000 : Nat) - 0 > 300000000000)) = false := by
  constructor
  · rfl
  · rfl

/-- C5: when the price cache file exists but its metadata cannot be read
and the force flag is off, both `should_refresh_prices` variants fail
fast with `cacheUnreadable` (the embedded panic), never yielding a
refresh decision; consequently the price load returns that error without
touching the cache and regardless of what the transport would return, so
no refetch occurs. -/
theorem cache_unreadable_fail_fast {α : Type} (cache : CacheFile) (force : Bool)
    (nowNanos ttlNanos : Nat) (fetchResult : Except Unit String)
    (decode : String → Option α)
    (hex : cache.content.isSome = true)
    (hmeta : cache.metadataReadable = false)
    (hforce : force = false) :
    clientPriceRefreshDecision cache force nowNanos ttlNanos = .error .cacheUnreadable
    ∧ mainShouldRefreshPrices cache force nowNanos = .error .cacheUnreadable
    ∧ getPrices cache fetchResult force nowNanos ttlNanos decode
        = (.error .cacheUnreadable, cache) := by
  subst hforce
  have h1 : clientPriceRefreshDecision cache false nowNanos ttlNanos
      = .error .cacheUnreadable := by
    simp [clientPriceRefreshDecision, shouldRefreshPrices, hex, hmeta]
  refine ⟨h1, ?_, ?_⟩
  · simp [mainShouldRefreshPrices, hex, hmeta]
  · simp [getPrices, h1]

/-- C5 witness: an existing but metadata-unreadable cache makes the check
and the whole load fail with `cacheUnreadable` at concrete inputs. -/
theorem cache_unreadable_fail_fast_witness :
    clientPriceRefreshDecision ⟨some "cached", false, 0⟩ false 7 5 = .error .cacheUnreadable
    ∧ mainShouldRefreshPrices ⟨some "cached", false, 0⟩ false 7 = .error .cacheUnreadable
    ∧ getPrices ⟨some "cached", false, 0⟩ (.ok "fresh") false 7 5
        (fun s => some s) = (.error .cacheUnreadable, ⟨some "cached", false, 0⟩) :=
  cache_unreadable_fail_fast ⟨some "cached", false, 0⟩ false 7 5 (.ok "fresh")
    (fun s => some s) rfl rfl rfl

/-- C10: with an existing cache, readable metadata and the force flag
off, the staleness check of both variants fails fast with
`mtimeInFuture` (the embedded `duration_since` panic) whenever the
cache file's mtime is strictly later than the current time — it never
returns a decision, in particular it never treats the cache as fresh —
and it is total (returns `.ok`) exactly when the mtime is not in the
future. -/
theorem future_mtime_fail_fast (cache : CacheFile) (force : Bool)
    (nowNanos ttlNanos : Nat)
    (hex : cache.content.isSome = true)
    (hmeta : cache.metadataReadable = true)
    (hforce : force = false) :
    (nowNanos < cache.mtimeNanos →
      clientPriceRefreshDecision cache force nowNanos ttlNanos = .error .mtimeInFuture
      ∧ mainShouldRefreshPrices cache force nowNanos = .error .mtimeInFuture)
    ∧ (cache.mtimeNanos ≤ nowNanos →
      clientPriceRefreshDecision cache force nowNanos ttlNanos
        = .ok (decide (nowNanos - cache.mtimeNanos > ttlNanos))
      ∧ mainShouldRefreshPrices cache force nowNanos
        = .ok (decide ((nowNanos - cache.mtimeNanos) / nanosPerSec ≥ 5 * 60))) := by
  subst hforce
  constructor
  · intro hfut
    constructor
    · simp [clientPriceRefreshDecision, shouldRefreshPrices, hex, hmeta, hfut]
    · simp [mainShouldRefreshPrices, hex, hmeta, hfut]
  · intro hpast
    constructor
    · simp [clientPriceRefreshDecision, shouldRefreshPrices, hex, hmeta,
        Nat.not_lt.mpr hpast]
    · simp [mainShouldRefreshPrices, hex, hmeta, Nat.not_lt.mpr hpast]

/-- C10 witness: a cache whose mtime (10 ns) is later than now (5 ns)
makes both staleness checks fail with `mtimeInFuture`. -/
theorem future_mtime_fail_fast_witness :
    clientPriceRefreshDecision ⟨some "cached", true, 10⟩ false 5 300 = .error .mtimeInFuture
    ∧ mainShouldRefreshPrices ⟨some "cached", true, 10⟩ false 5 = .error .mtimeInFuture :=
  (future_mtime_fail_fast ⟨some "cached", true, 10⟩ false 5 300 rfl rfl rfl).1
    (by decide)

/-- C1 (amended): whenever the refresh path is taken and the transport
returns a body that fails to decode, the load reports `decodeFailed`,
but the cache file has already been overwritten with the fetched bytes:
after the failed attempt the cache content is the fetched body, not the
pre-existing content. This holds for the mappings loader and for the
prices loader. -/
theorem refresh_writes_fetched_bytes_before_decode {α : Type}
    (cache : CacheFile) (body : String) (force : Bool)
    (decode : String → Option α)
    (hdec : decode body = none) :
    (clientMappingRefreshDecision cache force = true →
      getMappings cache (.ok body) force decode
        = (.error .decodeFailed, { cache with content := some body }))
    ∧ ∀ (nowNanos ttlNanos : Nat),
        clientPriceRefreshDecision cache force nowNanos ttlNanos = .ok true →
        getPrices cache (.ok body) force nowNanos ttlNanos decode
          = (.error .decodeFailed, { cache with content := some body }) := by
  constructor
  · intro hdecision
    simp [getMappings, hdecision, hdec]
  · intro nowNanos ttlNanos hdecision
    simp [getPrices, hdecision, hdec]

/-- C1 witness: forcing a mappings refresh over an existing cache with a
body the decoder rejects yields `decodeFailed` and a cache now holding
the fetched bytes. -/
theorem refresh_writes_fetched_bytes_before_decode_witness :
    getMappings ⟨some "old good cache", true, 0⟩ (.ok "garbage") true
      (fun _ => (none : Option Nat))
      = (.error .decodeFailed, ⟨some "garbage", true, 0⟩)
    ∧ getPrices ⟨some "old good cache", true, 0⟩ (.ok "garbage") true 0 0
      (fun _ => (none : Option Nat))
      = (.error .decodeFailed, ⟨some "garbage", true, 0⟩) :=
  ⟨(refresh_writes_fetched_bytes_before_decode ⟨some "old good cache", true, 0⟩
      "garbage" true (fun _ => (none : Option Nat)) rfl).1 rfl,
   (refresh_writes_fetched_bytes_before_decode ⟨some "old good cache", true, 0⟩
      "garbage" true (fun _ => (none : Option Nat)) rfl).2 0 0 rfl⟩

/-- C1 counterexample: a forced mappings refresh whose fetched bytes fail
to decode leaves the cache holding those fetched bytes — the on-disk
content before the attempt (`"old good cache"`) and after
(`"garbage"`) are not byte-identical, so a write did occur. -/
theorem decode_failure_overwrites_cache_cex :
    (getMappings ⟨some "old good cache", true, 0⟩ (.ok "garbage") true
        (fun _ => (none : Option Nat))).1 = .error .decodeFailed
    ∧ (getMappings ⟨some "old good cache", true, 0⟩ (.ok "garbage") true
        (fun _ => (none : Option Nat))).2.content = some "garbage"
    ∧ (some "garbage" : Option String) ≠ some "old good cache" := by
  refine ⟨rfl, rfl, by decide⟩

theorem char_toNat_ofNat (n : Nat) (h : n.isValidChar) : (Char.ofNat n).toNat = n := by
  simp only [Char.ofNat, dif_pos h, Char.ofNatAux, Char.toNat, UInt32.toNat,
    BitVec.toNat_ofNatLt]

theorem toLower_toUpper (c : Char) : c.toUpper.toLower = c.toLower := by
  unfold Char.toUpper Char.toLower
  by_cases h1 : c.toNat ≥ 97 ∧ c.toNat ≤ 122
  · rw [if_pos h1]
    have hval : (c.toNat - 32).isValidChar := by
      constructor
      omega
    rw [char_toNat_ofNat _ hval]
    rw [if_pos (by omega), if_neg (by omega)]
    have harith : c.toNat - 32 + 32 = c.toNat := by omega
    rw [harith, Char.ofNat_toNat]
  · rw [if_neg h1]

theorem toLower_idem (c : Char) : c.toLower.toLower = c.toLower := by
  unfold Char.toLower
  by_cases h1 : c.toNat ≥ 65 ∧ c.toNat ≤ 90
  · rw [if_pos h1]
    have hval : (c.toNat + 32).isValidChar := by
      constructor
      omega
    rw [char_toNat_ofNat _ hval, if_neg (by omega)]
  · simp [h1]

theorem toLower_flipCase (c : Char) : (flipCaseChar c).toLower = c.toLower := by
  unfold flipCaseChar
  by_cases h : c.isLower
  · rw [if_pos h]
    exact toLower_toUpper c
  · rw [if_neg h]
    exact toLower_idem c

theorem leadsWith_iff (n : List Char) : ∀ h : List Char,
    leadsWith n h = true ↔ ∃ t, h = n ++ t := by
  induction n with
  | nil =>
    intro h
    simp [leadsWith]
  | cons a as ih =>
    intro h
    cases h with
    | nil => simp [leadsWith]
    | cons b bs =>
      simp only [leadsWith, Bool.and_eq_true, beq_iff_eq, List.cons_append,
        List.cons.injEq, ih]
      constructor
      · rintro ⟨rfl, t, rfl⟩
        exact ⟨t, rfl, rfl⟩
      · rintro ⟨t, rfl, rfl⟩
        exact ⟨rfl, t, rfl⟩

theorem occursIn_iff (n : List Char) : ∀ h : List Char,
    occursIn n h = true ↔ ∃ l r, h = l ++ (n ++ r) := by
  intro h
  induction h with
  | nil =>
    simp [occursIn, List.isEmpty_iff]
  | cons c rest ih =>
    simp only [occursIn, Bool.or_eq_true, ih, leadsWith_iff]
    constructor
    · rintro (⟨t, ht⟩ | ⟨l, r, hlr⟩)
      · exact ⟨[], t, by simp [ht]⟩
      · exact ⟨c :: l, r, by simp [hlr]⟩
    · rintro ⟨l, r, hlr⟩
      cases l with
      | nil =>
        left
        exact ⟨r, by simpa using hlr⟩
      | cons x l2 =>
        right
        rw [List.cons_append] at hlr
        exact ⟨l2, r, (List.cons.injEq _ _ _ _).mp hlr |>.2⟩

theorem getMatchingItemIds_lower_congr (q1 q2 : String) (mappings : List ItemMapping)
    (h : q1.data.map Char.toLower = q2.data.map Char.toLower) :
    getMatchingItemIds q1 mappings = getMatchingItemIds q2 mappings := by
  simp only [getMatchingItemIds, matchedIdsList]
  rw [h]

/-- C6: the matcher result is invariant under changing the case of the
query: flipping every letter's case, or uppercasing the whole query,
yields the same id set on every mapping collection. -/
theorem matcher_case_insensitive (q : String) (mappings : List ItemMapping) :
    getMatchingItemIds (flipCaseStr q) mappings = getMatchingItemIds q mappings
    ∧ getMatchingItemIds (upperStr q) mappings = getMatchingItemIds q mappings := by
  have hflip : Char.toLower ∘ flipCaseChar = Char.toLower := funext toLower_flipCase
  have hup : Char.toLower ∘ Char.toUpper = Char.toLower := funext toLower_toUpper
  constructor
  · apply getMatchingItemIds_lower_congr
    show (q.data.map flipCaseChar).map Char.toLower = q.data.map Char.toLower
    rw [List.map_map, hflip]
  · apply getMatchingItemIds_lower_congr
    show (q.data.map Char.toUpper).map Char.toLower = q.data.map Char.toLower
    rw [List.map_map, hup]

/-- C7: an id is in the matcher result iff some mapping entry carries it
and that entry's lowercased name contains the lowercased query as a
contiguous substring; the result is a pure function of the inputs (so
deterministic), and the empty set is the ordinary outcome when nothing
matches. -/
theorem matcher_substring_semantics (q : String) (mappings : List ItemMapping) (i : Nat) :
    i ∈ getMatchingItemIds q mappings ↔
      ∃ m, m ∈ mappings ∧ m.id = i ∧
        ∃ l r, m.name.data.map Char.toLower = l ++ (q.data.map Char.toLower ++ r) := by
  simp only [getMatchingItemIds, matchedIdsList, List.mem_toFinset, List.mem_map,
    List.mem_filter]
  constructor
  · rintro ⟨m, ⟨hm, hocc⟩, rfl⟩
    exact ⟨m, hm, rfl, (occursIn_iff _ _).mp hocc⟩
  · rintro ⟨m, hm, rfl, hsub⟩
    exact ⟨m, ⟨hm, (occursIn_iff _ _).mpr hsub⟩, rfl⟩

/-- C9: the matcher result is a set, so each id appears at most once in
it while membership agrees with the raw (possibly duplicated) filtered
id list; and the display join `mappings.iter().find(...)` resolves an id
shared by several entries to the first such entry in mapping order. -/
theorem matcher_dedup_first_entry_join (q : String) (mappings : List ItemMapping) :
    (getMatchingItemIds q mappings).toList.Nodup
    ∧ (∀ i, i ∈ getMatchingItemIds q mappings ↔ i ∈ matchedIdsList q mappings)
    ∧ ∀ (pre mid post : List ItemMapping) (e1 e2 : ItemMapping),
        e2.id = e1.id → (∀ m, m ∈ pre → m.id ≠ e1.id) →
        lookupName e1.id (pre ++ e1 :: (mid ++ e2 :: post)) = some e1.name := by
  refine ⟨Finset.nodup_toList _, fun i => List.mem_toFinset, ?_⟩
  intro pre mid post e1 e2 _
  induction pre with
  | nil =>
    intro _
    simp [lookupName, List.find?]
  | cons p pre2 ih =>
    intro hpre
    have hne : (p.id == e1.id) = false := by
      simp [hpre p (List.mem_cons_self p pre2)]
    simp only [List.cons_append, lookupName, List.find?, hne]
    exact ih fun m hm => hpre m (List.mem_cons_of_mem p hm)

/-- C9 witness: with two entries sharing id 7, the join yields the first
one's name. -/
theorem matcher_dedup_first_entry_join_witness :
    lookupName 7 [⟨5, "other"⟩, ⟨7, "first name"⟩, ⟨7, "second name"⟩]
      = some "first name" :=
  (matcher_dedup_first_entry_join "q" []).2.2 [⟨5, "other"⟩] [] []
    ⟨7, "first name"⟩ ⟨7, "second name"⟩ rfl (by decide)

theorem lookupName_isSome_of_mem_matcher (q : String) (mappings : List ItemMapping)
    (i : Nat) (h : i ∈ getMatchingItemIds q mappings) :
    (lookupName i mappings).isSome = true := by
  simp only [getMatchingItemIds, matchedIdsList, List.mem_toFinset, List.mem_map,
    List.mem_filter] at h
  obtain ⟨m, ⟨hm, _⟩, rfl⟩ := h
  have hfind : (mappings.find? (fun m2 => m2.id == m.id)).isSome = true := by
    rw [List.find?_isSome]
    exact ⟨m, hm, by simp⟩
  simpa [lookupName] using hfind

/-- C2 (amended): `display_price` renders an absent `high` or `low`
field as the number 0 — the `unwrap_or(0)` default — formatted like any
other number; it does not render an absence marker such as N/A, and it
does not error. -/
theorem display_absent_field_renders_zero (fmt : Nat → String) (name : String)
    (hi lo : Option Nat) :
    displayPrice fmt name ⟨none, lo⟩
      = name ++ " -> high: " ++ fmt 0 ++ ", low: " ++ fmt (lo.getD 0)
    ∧ displayPrice fmt name ⟨hi, none⟩
      = name ++ " -> high: " ++ fmt (hi.getD 0) ++ ", low: " ++ fmt 0 :=
  ⟨rfl, rfl⟩

/-- C2 counterexample: for the entry with `high` absent and `low` 42000,
the rendered line shows `high: 0` and contains no N/A marker — the high
side is displayed as the number 0, contradicting the claimed N/A. -/
theorem display_absent_high_renders_zero_cex :
    displayPrice Nat.repr "Item" ⟨none, some 42000⟩ = "Item -> high: 0, low: 42000"
    ∧ occursIn ("N/A".data) (("Item -> high: 0, low: 42000").data) = false := by
  constructor
  · rfl
  · rfl

/-- C8: whenever every processed id is one the matcher produced, the
display loop completes without error (no name lookup panics), and an id
with no entry in the price table contributes no output line: the output
equals that of the loop over only the ids that do have prices, one line
per such id. -/
theorem missing_price_skipped (fmt : Nat → String) (q : String)
    (mappings : List ItemMapping) (data : List (String × PriceResult))
    (ids : List Nat)
    (hids : ∀ i, i ∈ ids → i ∈ getMatchingItemIds q mappings) :
    ∃ lines, displayLoop fmt mappings data ids = some lines
      ∧ displayLoop fmt mappings data
          (ids.filter (fun i => (priceLookup data i).isSome)) = some lines
      ∧ lines.length = (ids.filter (fun i => (priceLookup data i).isSome)).length := by
  induction ids with
  | nil => exact ⟨[], rfl, rfl, rfl⟩
  | cons i rest ih =>
    obtain ⟨lines, h1, h2, h3⟩ := ih (fun j hj => hids j (List.mem_cons_of_mem i hj))
    have hname : (lookupName i mappings).isSome = true :=
      lookupName_isSome_of_mem_matcher q mappings i (hids i (List.mem_cons_self i rest))
    obtain ⟨name, hn⟩ := Option.isSome_iff_exists.mp hname
    cases hp : priceLookup data i with
    | none =>
      have hfil : (i :: rest).filter (fun j => (priceLookup data j).isSome)
          = rest.filter (fun j => (priceLookup data j).isSome) := by
        simp [List.filter, hp]
      refine ⟨lines, ?_, ?_, ?_⟩
      · simp [displayLoop, hn, h1, hp]
      · rw [hfil]
        exact h2
      · rw [hfil]
        exact h3
    | some price =>
      have hfil : (i :: rest).filter (fun j => (priceLookup data j).isSome)
          = i :: rest.filter (fun j => (priceLookup data j).isSome) := by
        simp [List.filter, hp]
      refine ⟨displayPrice fmt name price :: lines, ?_, ?_, ?_⟩
      · simp [displayLoop, hn, h1, hp]
      · rw [hfil]
        simp [displayLoop, hn, h2, hp]
      · rw [hfil]
        simp [h3]

/-- C8 witness: the single matched id 1 has no price entry, so the loop
succeeds with no output lines. -/
theorem missing_price_skipped_witness :
    ∃ lines, displayLoop Nat.repr [⟨1, "abc"⟩] [] [1] = some lines
      ∧ displayLoop Nat.repr [⟨1, "abc"⟩] []
          (([1] : List Nat).filter (fun i => (priceLookup [] i).isSome)) = some lines
      ∧ lines.length
          = (([1] : List Nat).filter (fun i => (priceLookup [] i).isSome)).length :=
  missing_price_skipped Nat.repr "abc" [⟨1, "abc"⟩] [] [1] (by decide)
